import Mathlib

/-!
Verification of the concurrent TCP echo server (`src/main.go`).

Shallow embedding notes:
* Go strings / byte buffers are modelled as `List Char` (the protocol traffic
  in question is ASCII; one `Char` stands for one byte).
* `conn.Read` outcomes are modelled as events: a successful read of a chunk
  (its byte count is the chunk's length), end-of-stream, a deadline-exceeded
  timeout, or another I/O error.  Go's `Read` can in principle return both
  data and an error; the code under verification checks the error first, so
  the exclusive-event model matches its observable behaviour.
* Real time (the 30s read deadline, the 200ms flush deadline) is modelled by
  the timeout event: it occurs exactly when the armed deadline elapses.
* Writes to the peer and to the per-client log are collected in order;
  the RFC3339 timestamps the code prepends to console/log lines are not
  modelled (no claim depends on them).
-/

namespace EchoServer

/-- Whitespace per Go's `unicode.IsSpace` restricted to ASCII, as used by
`strings.TrimSpace` and `strings.Fields` in `main.go`. -/
def goIsSpace (c : Char) : Bool :=
  c = ' ' || c = '\t' || c = '\n' || c = '\x0b' || c = '\x0c' || c = '\r'

/-- `strings.TrimSpace`: drop whitespace from both ends. -/
def trimSpace (l : List Char) : List Char :=
  ((l.dropWhile goIsSpace).reverse.dropWhile goIsSpace).reverse

/-- `strings.ToLower` on one ASCII character. -/
def goToLower (c : Char) : Char :=
  if 'A' ≤ c ∧ c ≤ 'Z' then Char.ofNat (c.toNat + 32) else c

/-- `strings.ToLower` on a string. -/
def toLowerStr (l : List Char) : List Char := l.map goToLower

/-- Helper for `strFields`: accumulate the current field (reversed). -/
def fieldsAux : List Char → List Char → List (List Char)
  | [], acc => if acc = [] then [] else [acc.reverse]
  | c :: cs, acc =>
    if goIsSpace c then
      if acc = [] then fieldsAux cs [] else acc.reverse :: fieldsAux cs []
    else fieldsAux cs (c :: acc)

/-- `strings.Fields`: split around runs of whitespace; no empty fields. -/
def strFields (l : List Char) : List (List Char) := fieldsAux l []

/-- `strings.Join(ws, " ")`. -/
def joinSpace : List (List Char) → List Char
  | [] => []
  | [w] => w
  | w :: ws => w ++ ' ' :: joinSpace ws

/-- Does the message start with `"/"` (the dispatcher's slash-command
test in `main.go`)? -/
def startsWithSlash : List Char → Bool
  | [] => false
  | c :: _ => c == '/'

/-- Peer-visible protocol strings of `main.go` (each written with a trailing
newline by the code). -/
def helloResp : List Char := "Hi there!\n".data

def byeResp : List Char := "Goodbye!\n".data

def promptMsg : List Char := "Say something...\n".data

def quitResp : List Char := "Closing connection...\n".data

def echoUsage : List Char := "Usage: /echo <message>\n".data

def unknownResp : List Char := "Unknown command.\n".data

def oversizeNotice : List Char :=
  "Message cannot be more than 1024 bytes (1024 regular characters).\n".data

def timeoutNotice : List Char := "Connection timeout. Disconnecting...\n".data

def capacityNotice : List Char := "Server is at max capacity. Try again later.\n".data

/-- `/time` response: `"Current time: " + now + "\n"` where `now` is the
RFC1123-formatted current time (passed in as a parameter here). -/
def timeResp (now : List Char) : List Char :=
  "Current time: ".data ++ now ++ ['\n']

/-- Outcome of `handleClientMessage`: the responses it writes to the peer, and
whether it returns a non-nil error (`"client disconnected"`), which makes the
session loop terminate. -/
structure DispatchOut where
  writes : List (List Char)
  terminate : Bool
  deriving DecidableEq, Repr

/-- `handleClientMessage(conn, message)` from `main.go`, parameterised by the
formatted current time `now`.  `none` models the `fields[0]` index-out-of-range
panic that would occur if `strings.Fields` returned no fields inside the
`"/"`-prefixed branch. -/
def handleClientMessage (now msg : List Char) : Option DispatchOut :=
  let low := toLowerStr msg
  if low = "hello".data then some ⟨[helloResp], false⟩
  else if low = "bye".data then some ⟨[byeResp], true⟩
  else if low = [] then some ⟨[promptMsg], false⟩
  else if startsWithSlash msg then
    match strFields msg with
    | [] => none
    | f0 :: rest =>
      let cmd := toLowerStr f0
      if cmd = "/time".data then some ⟨[timeResp now], false⟩
      else if cmd = "/quit".data then some ⟨[quitResp], true⟩
      else if cmd = "/echo".data then
        if (f0 :: rest).length > 1 then some ⟨[joinSpace rest ++ ['\n']], false⟩
        else some ⟨[echoUsage], false⟩
      else some ⟨[unknownResp], false⟩
  else some ⟨[], false⟩

/-- Why the session's read loop exited (`handleEcho`'s returned error). -/
inductive CloseReason where
  | eofClosed
  | timedOut
  | ioFault
  | clientQuit
  deriving DecidableEq, Repr

/-- Control state of one `handleEcho` loop: normal reading, the
`flushExtraInput` discard loop, closed (loop returned an error), or
`panicked` for the (unreachable, see the safety theorem) `fields[0]`
index-out-of-range panic. -/
inductive Mode where
  | reading
  | flushing
  | closed (r : CloseReason)
  | panicked
  deriving DecidableEq, Repr

/-- Observable state of one connection session: control mode, the messages
written to the peer in order, and the messages passed to `logger.Log` in
order. -/
structure SessionState where
  mode : Mode
  writes : List (List Char)
  logged : List (List Char)
  deriving DecidableEq, Repr

/-- One outcome of `conn.Read`: a chunk of bytes (the read count is the
chunk's length), end of stream, the armed deadline elapsing, or another I/O
error. -/
inductive ReadEvent where
  | chunk (s : List Char)
  | eofErr
  | timeoutErr
  | ioErr
  deriving DecidableEq, Repr

/-- `maxMessageSize` in `handleEcho`: the read buffer's capacity. -/
def maxMessageSize : Nat := 1024

/-- The non-oversize branch of `handleEcho`'s loop body: trim the chunk,
prompt on an empty result, otherwise dispatch via `handleClientMessage`,
then (when the dispatcher continues) log the trimmed line and echo it back. -/
def normalLineStep (now : List Char) (st : SessionState) (s : List Char) :
    SessionState :=
  let trimmed := trimSpace s
  if trimmed = [] then { st with writes := st.writes ++ [promptMsg] }
  else
    match handleClientMessage now trimmed with
    | none => { st with mode := .panicked }
    | some out =>
      if out.terminate then
        { st with writes := st.writes ++ out.writes, mode := .closed .clientQuit }
      else
        { st with writes := st.writes ++ out.writes ++ [trimmed ++ ['\n']],
                  logged := st.logged ++ [trimmed] }

/-- One iteration of `handleEcho`'s main loop (mode `reading`): errors close
the session; a read that fills the buffer writes the oversize notice and
enters the `flushExtraInput` loop; anything else is a normal line. -/
def readingStep (now : List Char) (st : SessionState) : ReadEvent → SessionState
  | .eofErr => { st with mode := .closed .eofClosed }
  | .timeoutErr => { st with mode := .closed .timedOut }
  | .ioErr => { st with mode := .closed .ioFault }
  | .chunk s =>
    if s.length = maxMessageSize then
      { st with writes := st.writes ++ [oversizeNotice], mode := .flushing }
    else normalLineStep now st s

/-- One iteration of `flushExtraInput`'s loop (mode `flushing`): the 200ms
deadline elapsing means flushing is done (back to reading); any other error is
returned, closing the session; a read of fewer than `maxMessageSize` bytes
ends the overflow (back to reading); a full read keeps discarding. -/
def flushingStep (st : SessionState) : ReadEvent → SessionState
  | .timeoutErr => { st with mode := .reading }
  | .eofErr => { st with mode := .closed .eofClosed }
  | .ioErr => { st with mode := .closed .ioFault }
  | .chunk s => if s.length < maxMessageSize then { st with mode := .reading } else st

/-- One step of the whole session on one read outcome; a closed (or panicked)
session performs no further reads, so later events leave it unchanged. -/
def sessionStep (now : List Char) (st : SessionState) (e : ReadEvent) :
    SessionState :=
  match st.mode with
  | .reading => readingStep now st e
  | .flushing => flushingStep st e
  | _ => st

/-- Session state at start of `handleEcho`: reading, nothing written or
logged. -/
def initState : SessionState := ⟨.reading, [], []⟩

/-- The session loop over a whole sequence of read outcomes. -/
def runSession (now : List Char) (evs : List ReadEvent) : SessionState :=
  evs.foldl (sessionStep now) initState

/-- The Go error values `handleEcho` can return, as seen by `logError`:
`io.EOF`; a `net.Error` that is a timeout; a `net.Error` that is not; or an
error built with `fmt.Errorf` (never a `net.Error`, never `io.EOF`). -/
inductive GoError where
  | eofE
  | netTimeout
  | netOther
  | wrapped (msg : List Char)
  deriving DecidableEq, Repr

/-- The messages `logError(conn, err)` writes to the peer: only a timeout
`net.Error` gets the timeout notice; `io.EOF` and everything else only
produce console output. -/
def logErrorWrites : GoError → List (List Char)
  | .netTimeout => [timeoutNotice]
  | _ => []

/-- The error value `handleEcho` returns for each close reason:
end-of-stream is `io.EOF` propagated from `conn.Read`; the 30s deadline
elapsing is a timeout `net.Error`; other read faults are non-timeout
`net.Error`s; `bye` and `/quit` return `fmt.Errorf("client disconnected")`. -/
def reasonError : CloseReason → GoError
  | .eofClosed => .eofE
  | .timedOut => .netTimeout
  | .ioFault => .netOther
  | .clientQuit => .wrapped "client disconnected".data

/-- What `main`'s accept loop does with one accepted connection, besides
updating the slot count: either a session task is started, or the capacity
notice is written and the connection is closed at once (no queueing, no
retry — there is no other alternative in the `select`). -/
structure AcceptOutcome where
  writes : List (List Char)
  closedNow : Bool
  sessionStarted : Bool
  deriving DecidableEq, Repr

/-- The `select` on the buffered channel `workerPool` (capacity `cap`) in
`main`: sending succeeds exactly when fewer than `cap` tokens are buffered,
i.e. when fewer than `cap` slots are held; otherwise the `default` branch
writes the capacity notice and closes the connection. -/
def acceptStep (cap held : Nat) : Nat × AcceptOutcome :=
  if held < cap then (held + 1, ⟨[], false, true⟩)
  else (held, ⟨[capacityNotice], true, false⟩)

/-- Events seen by the slot pool: a connection is accepted (`arrive`), or a
running worker finishes and executes its deferred `<-workerPool` (`finish`).
A `finish` can only be emitted by a worker that holds a slot, but the
invariant below does not need that assumption. -/
inductive AdmEvent where
  | arrive
  | finish
  deriving DecidableEq, Repr

/-- Slot count evolution for one event. -/
def poolStep (cap held : Nat) : AdmEvent → Nat
  | .arrive => (acceptStep cap held).1
  | .finish => held - 1

/-- Number of held slots after a sequence of arrivals and completions,
starting from the empty pool. -/
def runPool (cap : Nat) (evs : List AdmEvent) : Nat :=
  evs.foldl (fun held e => poolStep cap held e) 0

/-- Result of `parseFlags()`: normal startup configuration, the graceful
`os.Exit(1)` for an invalid `-workers` value, or the index-out-of-range
panic on `portStr[0]`. -/
inductive ParseOutcome where
  | ok (port : List Char) (workers : Int)
  | exitInvalidWorkers
  | panicIndexRange
  deriving DecidableEq, Repr

/-- Decimal digit run evaluation; `none` on any non-digit. -/
def digitsValAux : List Char → Nat → Option Nat
  | [], acc => some acc
  | c :: cs, acc =>
    if c.isDigit then digitsValAux cs (acc * 10 + (c.toNat - 48)) else none

/-- Value of a non-empty all-digit string; `none` otherwise. -/
def digitsToNat : List Char → Option Nat
  | [] => none
  | l => digitsValAux l 0

/-- `strconv.Atoi`: optional sign followed by at least one digit.
(Overflow of 64-bit integers is not modelled; no flag value in the claims
comes near it.) -/
def goAtoi : List Char → Option Int
  | [] => none
  | '+' :: rest => (digitsToNat rest).map Int.ofNat
  | '-' :: rest => (digitsToNat rest).map (fun n => -Int.ofNat n)
  | l => (digitsToNat l).map Int.ofNat

/-- `parseFlags()` from `main.go`, applied to the string values of the
`-port` and `-workers` flags: reject a `-workers` value that fails `Atoi` or
is `< 1` with a diagnostic and `os.Exit(1)`; then index `portStr[0]` (a panic
when the port string is empty) to normalize a missing leading colon. -/
def parseFlags (portFlag workersFlag : List Char) : ParseOutcome :=
  match goAtoi workersFlag with
  | none => .exitInvalidWorkers
  | some w =>
    if w < 1 then .exitInvalidWorkers
    else
      match portFlag with
      | [] => .panicIndexRange
      | c :: _ =>
        .ok (if c = ':' then portFlag else ':' :: portFlag) w

set_option maxRecDepth 100000

lemma goToLower_slash : goToLower '/' = '/' := by decide

lemma fieldsAux_ne_nil (l : List Char) :
    ∀ acc : List Char, acc ≠ [] → fieldsAux l acc ≠ [] := by
  induction l with
  | nil => intro acc h; simp [fieldsAux, h]
  | cons c cs ih =>
    intro acc h
    by_cases hsp : goIsSpace c
    · simp [fieldsAux, hsp, h]
    · simpa [fieldsAux, hsp] using ih (c :: acc) (by simp)

lemma strFields_slash_ne_nil (msg : List Char) (h : startsWithSlash msg = true) :
    strFields msg ≠ [] := by
  cases msg with
  | nil => simp [startsWithSlash] at h
  | cons c cs =>
    have hc : c = '/' := by simpa [startsWithSlash] using h
    subst hc
    have hsp : goIsSpace '/' = false := by decide
    simpa [strFields, fieldsAux, hsp] using fieldsAux_ne_nil cs ['/'] (by simp)

lemma toLowerStr_slash (msg : List Char) (h : startsWithSlash msg = true) :
    ∃ t, toLowerStr msg = '/' :: t := by
  cases msg with
  | nil => simp [startsWithSlash] at h
  | cons c cs =>
    have hc : c = '/' := by simpa [startsWithSlash] using h
    subst hc
    exact ⟨toLowerStr cs, by simp [toLowerStr, goToLower_slash]⟩

lemma slash_ne_hello (msg : List Char) (h : startsWithSlash msg = true) :
    toLowerStr msg ≠ "hello".data := by
  obtain ⟨t, ht⟩ := toLowerStr_slash msg h
  rw [ht]
  intro hc
  injection hc with h1 _
  exact absurd h1 (by decide)

lemma slash_ne_bye (msg : List Char) (h : startsWithSlash msg = true) :
    toLowerStr msg ≠ "bye".data := by
  obtain ⟨t, ht⟩ := toLowerStr_slash msg h
  rw [ht]
  intro hc
  injection hc with h1 _
  exact absurd h1 (by decide)

lemma toLowerStr_ne_nil (msg : List Char) (h : msg ≠ []) : toLowerStr msg ≠ [] := by
  simpa [toLowerStr] using h

lemma handleClientMessage_isSome (now msg : List Char) (h : msg ≠ []) :
    (handleClientMessage now msg).isSome = true := by
  unfold handleClientMessage
  by_cases h1 : toLowerStr msg = "hello".data
  · simp [h1]
  by_cases h2 : toLowerStr msg = "bye".data
  · simp [h1, h2]
  have h3 : ¬ toLowerStr msg = [] := toLowerStr_ne_nil msg h
  by_cases h4 : startsWithSlash msg = true
  · cases hf : strFields msg with
    | nil => exact absurd hf (strFields_slash_ne_nil msg h4)
    | cons f0 rest =>
      simp only [h1, h2, h3, h4, hf, if_false, if_true]
      split_ifs <;> simp
  · simp [h1, h2, h3, h4]

lemma normalLineStep_no_panic (now : List Char) (st : SessionState) (s : List Char)
    (h : st.mode ≠ .panicked) : (normalLineStep now st s).mode ≠ .panicked := by
  unfold normalLineStep
  by_cases ht : trimSpace s = []
  · simpa [ht] using h
  · cases hcm : handleClientMessage now (trimSpace s) with
    | none =>
      have := handleClientMessage_isSome now (trimSpace s) ht
      simp [hcm] at this
    | some out =>
      simp only [ht, hcm, if_false]
      split_ifs <;> simp_all

lemma sessionStep_no_panic (now : List Char) (st : SessionState) (e : ReadEvent)
    (h : st.mode ≠ .panicked) : (sessionStep now st e).mode ≠ .panicked := by
  unfold sessionStep
  cases hm : st.mode with
  | reading =>
    cases e with
    | chunk s =>
      by_cases hlen : s.length = maxMessageSize
      · simp [readingStep, hlen]
      · simpa [readingStep, hlen] using normalLineStep_no_panic now st s h
    | eofErr => simp [readingStep]
    | timeoutErr => simp [readingStep]
    | ioErr => simp [readingStep]
  | flushing =>
    cases e with
    | chunk s => simp only [flushingStep]; split_ifs <;> simp_all
    | eofErr => simp [flushingStep]
    | timeoutErr => simp [flushingStep]
    | ioErr => simp [flushingStep]
  | closed r => simp [hm]
  | panicked => exact absurd hm h

lemma foldl_no_panic (now : List Char) :
    ∀ (evs : List ReadEvent) (st : SessionState), st.mode ≠ .panicked →
      (evs.foldl (sessionStep now) st).mode ≠ .panicked := by
  intro evs
  induction evs with
  | nil => intro st h; simpa using h
  | cons e evs ih =>
    intro st h
    simp only [List.foldl]
    exact ih _ (sessionStep_no_panic now st e h)

lemma poolFoldl_le (cap : Nat) :
    ∀ (evs : List AdmEvent) (held : Nat), held ≤ cap →
      evs.foldl (fun h e => poolStep cap h e) held ≤ cap := by
  intro evs
  induction evs with
  | nil => intro held h; simpa using h
  | cons e evs ih =>
    intro held h
    simp only [List.foldl]
    apply ih
    cases e with
    | arrive =>
      unfold poolStep acceptStep
      split_ifs with hlt
      · simpa using hlt
      · simpa using h
    | finish => exact le_trans (Nat.sub_le held 1) h

/-- Claim C1: for every capacity `N ≥ 1` and every sequence of connection
arrivals and worker completions, the number of held slots never exceeds `N`;
and a connection arriving while all `N` slots are held is immediately written
the capacity notice and closed — no session is started, so it is never queued
or retried. -/
theorem claim_C1_admission_bound (cap : Nat) (_hcap : 1 ≤ cap) :
    (∀ evs : List AdmEvent, runPool cap evs ≤ cap)
  ∧ (∀ held : Nat, cap ≤ held →
      acceptStep cap held = (held, ⟨[capacityNotice], true, false⟩)) := by
  refine ⟨fun evs => poolFoldl_le cap evs 0 (Nat.zero_le cap), fun held hheld => ?_⟩
  unfold acceptStep
  rw [if_neg (by omega)]

/-- Witness for C1 at capacity 1: two simultaneous arrivals hold at most one
slot, and an arrival at a full pool is rejected with the capacity notice. -/
theorem claim_C1_admission_bound_witness :
    runPool 1 [.arrive, .arrive] ≤ 1
  ∧ acceptStep 1 1 = (1, ⟨[capacityNotice], true, false⟩) :=
  ⟨(claim_C1_admission_bound 1 (by decide)).1 [.arrive, .arrive],
   (claim_C1_admission_bound 1 (by decide)).2 1 (by decide)⟩

/-- Claim C6: `logError` writes the timeout notice to the peer exactly when
the error ending the read loop is a timeout (`net.Error` with
`Timeout() == true`); on `io.EOF` (clean disconnect) and on every other error
nothing is written to the peer. -/
theorem claim_C6_timeout_notice :
    (∀ e : GoError,
        logErrorWrites e = if e = .netTimeout then [timeoutNotice] else [])
  ∧ (∀ r : CloseReason,
        logErrorWrites (reasonError r) =
          if r = .timedOut then [timeoutNotice] else []) := by
  constructor
  · intro e
    cases e <;> rfl
  · intro r
    cases r <;> rfl

/-- Claim C9: the session loop dispatches only non-empty trimmed messages;
for any non-empty message starting with `"/"`, `strings.Fields` yields at
least one field, so the `fields[0]` access cannot go out of bounds (the
dispatcher never returns `none`), and since lowering preserves length the
dispatcher's empty-string case is unreachable; consequently no run of the
session ever panics. -/
theorem claim_C9_dispatch_safety :
    (∀ msg : List Char, msg ≠ [] → startsWithSlash msg = true → strFields msg ≠ [])
  ∧ (∀ now msg : List Char, msg ≠ [] → (handleClientMessage now msg).isSome = true)
  ∧ (∀ msg : List Char, msg ≠ [] → toLowerStr msg ≠ [])
  ∧ (∀ (now : List Char) (evs : List ReadEvent),
        (runSession now evs).mode ≠ .panicked) :=
  ⟨fun msg _ h => strFields_slash_ne_nil msg h,
   handleClientMessage_isSome,
   toLowerStr_ne_nil,
   fun now evs => foldl_no_panic now evs initState (by simp [initState])⟩

/-- Witness for C9 on the minimal slash command `"/"`. -/
theorem claim_C9_dispatch_safety_witness :
    strFields "/".data ≠ []
  ∧ (handleClientMessage "T".data "/".data).isSome = true
  ∧ toLowerStr "/".data ≠ []
  ∧ (runSession "T".data [.chunk "/".data]).mode ≠ .panicked :=
  ⟨claim_C9_dispatch_safety.1 "/".data (by decide) (by decide),
   claim_C9_dispatch_safety.2.1 "T".data "/".data (by decide),
   claim_C9_dispatch_safety.2.2.1 "/".data (by decide),
   claim_C9_dispatch_safety.2.2.2 "T".data [.chunk "/".data]⟩

/-- Claim C10: `parseFlags` with an empty `-port` value reaches the
`portStr[0]` index and panics (index out of range); the graceful
`os.Exit(1)` refusal is produced only by `-workers` values that fail `Atoi`
or are less than 1. -/
theorem claim_C10_empty_port_panic :
    parseFlags [] "5".data = .panicIndexRange
  ∧ (∀ p w : List Char, parseFlags p w = .exitInvalidWorkers →
      goAtoi w = none ∨ ∃ k : Int, goAtoi w = some k ∧ k < 1) := by
  constructor
  · rfl
  · intro p w h
    cases hw : goAtoi w with
    | none => exact Or.inl rfl
    | some k =>
      by_cases hk : k < 1
      · exact Or.inr ⟨k, rfl, hk⟩
      · exfalso
        cases p with
        | nil => simp [parseFlags, hw, hk] at h
        | cons c cs => simp [parseFlags, hw, hk] at h

/-- Witness for C10: `-workers 0` triggers the graceful refusal, and its
value indeed parses below 1. -/
theorem claim_C10_empty_port_panic_witness :
    goAtoi "0".data = none ∨ ∃ k : Int, goAtoi "0".data = some k ∧ k < 1 :=
  claim_C10_empty_port_panic.2 "4000".data "0".data (by decide)

/-- Claim C2: the dispatcher `handleClientMessage`, on any trimmed non-empty
line, realizes exactly this mapping (case-insensitive on recognized tokens):
`hello` → `Hi there!` and continue; `bye` → `Goodbye!` and terminate;
`/time` → current-time response and continue; `/quit` → `Closing
connection...` and terminate; `/echo` with at least one further field → the
remaining fields rejoined with single spaces and continue; `/echo` alone →
the usage message and continue; any other `/`-token → `Unknown command.` and
continue; any other text → no response and continue. -/
theorem claim_C2_dispatcher_mapping (now : List Char) :
    (∀ msg : List Char, toLowerStr msg = "hello".data →
        handleClientMessage now msg = some ⟨[helloResp], false⟩)
  ∧ (∀ msg : List Char, toLowerStr msg = "bye".data →
        handleClientMessage now msg = some ⟨[byeResp], true⟩)
  ∧ (∀ (msg f0 : List Char) (rest : List (List Char)),
        startsWithSlash msg = true → strFields msg = f0 :: rest →
        (toLowerStr f0 = "/time".data →
            handleClientMessage now msg = some ⟨[timeResp now], false⟩)
      ∧ (toLowerStr f0 = "/quit".data →
            handleClientMessage now msg = some ⟨[quitResp], true⟩)
      ∧ (toLowerStr f0 = "/echo".data → rest ≠ [] →
            handleClientMessage now msg = some ⟨[joinSpace rest ++ ['\n']], false⟩)
      ∧ (toLowerStr f0 = "/echo".data → rest = [] →
            handleClientMessage now msg = some ⟨[echoUsage], false⟩)
      ∧ (toLowerStr f0 ≠ "/time".data → toLowerStr f0 ≠ "/quit".data →
            toLowerStr f0 ≠ "/echo".data →
            handleClientMessage now msg = some ⟨[unknownResp], false⟩))
  ∧ (∀ msg : List Char, msg ≠ [] → startsWithSlash msg = false →
        toLowerStr msg ≠ "hello".data → toLowerStr msg ≠ "bye".data →
        handleClientMessage now msg = some ⟨[], false⟩) := by
  refine ⟨?_, ?_, ?_, ?_⟩
  · intro msg h1
    simp [handleClientMessage, h1]
  · intro msg h2
    have h1 : toLowerStr msg ≠ "hello".data := by rw [h2]; decide
    simp [handleClientMessage, h1, h2]
  · intro msg f0 rest hs hf
    have h1 : toLowerStr msg ≠ "hello".data := slash_ne_hello msg hs
    have h2 : toLowerStr msg ≠ "bye".data := slash_ne_bye msg hs
    have h3 : toLowerStr msg ≠ [] := by
      obtain ⟨t, ht⟩ := toLowerStr_slash msg hs
      rw [ht]; simp
    refine ⟨?_, ?_, ?_, ?_, ?_⟩
    · intro hcmd
      simp [handleClientMessage, h1, h2, h3, hs, hf, hcmd]
    · intro hcmd
      have hct : toLowerStr f0 ≠ "/time".data := by rw [hcmd]; decide
      simp [handleClientMessage, h1, h2, h3, hs, hf, hcmd, hct]
    · intro hcmd hr
      have hct : toLowerStr f0 ≠ "/time".data := by rw [hcmd]; decide
      have hcq : toLowerStr f0 ≠ "/quit".data := by rw [hcmd]; decide
      have hlen : 1 < (f0 :: rest).length := by
        have := List.length_pos.mpr hr
        simp only [List.length_cons]
        omega
      simp [handleClientMessage, h1, h2, h3, hs, hf, hcmd, hct, hcq, hlen]
      intro h
      exact absurd h hr
    · intro hcmd hr
      subst hr
      have hct : toLowerStr f0 ≠ "/time".data := by rw [hcmd]; decide
      have hcq : toLowerStr f0 ≠ "/quit".data := by rw [hcmd]; decide
      simp [handleClientMessage, h1, h2, h3, hs, hf, hcmd, hct, hcq]
    · intro hct hcq hce
      simp [handleClientMessage, h1, h2, h3, hs, hf, hct, hcq, hce]
  · intro msg h0 hs hh hb
    have h3 : toLowerStr msg ≠ [] := toLowerStr_ne_nil msg h0
    simp [handleClientMessage, hh, hb, h3, hs]

/-- Witness for C2: the recognized greeting is case-insensitive, and
`/Echo foo bar` echoes the remaining fields joined with single spaces. -/
theorem claim_C2_dispatcher_mapping_witness :
    handleClientMessage "Sat, 11 Oct 2026".data "HELLO".data =
      some ⟨[helloResp], false⟩
  ∧ handleClientMessage "Sat, 11 Oct 2026".data "/Echo foo bar".data =
      some ⟨[joinSpace ["foo".data, "bar".data] ++ ['\n']], false⟩ :=
  ⟨(claim_C2_dispatcher_mapping "Sat, 11 Oct 2026".data).1 "HELLO".data (by decide),
   ((claim_C2_dispatcher_mapping "Sat, 11 Oct 2026".data).2.2.1
      "/Echo foo bar".data "/Echo".data ["foo".data, "bar".data]
      (by decide) (by decide)).2.2.1 (by decide) (by decide)⟩

/-- Claim C5: a read filling the whole 1024-byte buffer makes the session
write the oversize rejection notice and enter the `flushExtraInput` recovery
loop; in recovery the session returns to normal reading exactly when a read
returns fewer than 1024 bytes or the 200ms flush deadline elapses (staying
open, with nothing further written), keeps discarding on another full read,
and closes exactly when another I/O error (including end-of-stream) occurs. -/
theorem claim_C5_overflow_recovery (now : List Char) (st : SessionState)
    (s : List Char) :
    (st.mode = .reading → s.length = maxMessageSize →
        sessionStep now st (.chunk s) =
          { st with writes := st.writes ++ [oversizeNotice], mode := .flushing })
  ∧ (st.mode = .flushing →
        (s.length < maxMessageSize →
            sessionStep now st (.chunk s) = { st with mode := .reading })
      ∧ (s.length = maxMessageSize → sessionStep now st (.chunk s) = st)
      ∧ sessionStep now st .timeoutErr = { st with mode := .reading }
      ∧ sessionStep now st .eofErr = { st with mode := .closed .eofClosed }
      ∧ sessionStep now st .ioErr = { st with mode := .closed .ioFault }) := by
  constructor
  · intro hm hlen
    simp [sessionStep, hm, readingStep, hlen]
  · intro hm
    refine ⟨fun hlt => ?_, fun heq => ?_, ?_, ?_, ?_⟩
    · simp [sessionStep, hm, flushingStep, hlt]
    · have hnlt : ¬ s.length < maxMessageSize := by omega
      simp [sessionStep, hm, flushingStep, hnlt]
    · simp [sessionStep, hm, flushingStep]
    · simp [sessionStep, hm, flushingStep]
    · simp [sessionStep, hm, flushingStep]

/-- Witness for C5: a fresh session hit by a full 1024-byte read enters
recovery with the oversize notice, and the flush deadline elapsing returns a
flushing session to reading. -/
theorem claim_C5_overflow_recovery_witness :
    sessionStep "T".data initState (.chunk (List.replicate 1024 'a')) =
      { initState with writes := initState.writes ++ [oversizeNotice],
                       mode := .flushing }
  ∧ sessionStep "T".data ⟨.flushing, [oversizeNotice], []⟩ .timeoutErr =
      { (⟨.flushing, [oversizeNotice], []⟩ : SessionState) with mode := .reading } :=
  ⟨(claim_C5_overflow_recovery "T".data initState (List.replicate 1024 'a')).1
      rfl (by simp [maxMessageSize]),
   ((claim_C5_overflow_recovery "T".data ⟨.flushing, [oversizeNotice], []⟩ []).2
      rfl).2.2.1⟩

/-- Counterexample to claim C3: `hello` is a recognized non-terminating
token whose dispatcher response is `Hi there!`, yet the session also writes
the plain echo `hello\n` to the peer — the plain echo is not reserved for
unrecognized lines. -/
theorem claim_C3_counterexample :
    handleClientMessage "T".data "hello".data = some ⟨[helloResp], false⟩
  ∧ (runSession "T".data [.chunk "hello".data]).writes =
      [helloResp, "hello".data ++ ['\n']] :=
  ⟨by decide, by decide⟩

/-- Amended claim C3: for every trimmed non-empty line shorter than the
buffer, if the dispatcher lets the session continue the peer receives the
dispatcher's responses followed by the plain echo of the line (recognized or
not); only terminating commands suppress the plain echo. -/
theorem claim_C3_echo_follows_every_reply (now : List Char) (st : SessionState)
    (msg : List Char) (out : DispatchOut) :
    st.mode = .reading → msg.length < maxMessageSize → trimSpace msg = msg →
    msg ≠ [] → handleClientMessage now msg = some out →
    (out.terminate = false →
        sessionStep now st (.chunk msg) =
          { st with writes := st.writes ++ out.writes ++ [msg ++ ['\n']],
                    logged := st.logged ++ [msg] })
  ∧ (out.terminate = true →
        sessionStep now st (.chunk msg) =
          { st with writes := st.writes ++ out.writes,
                    mode := .closed .clientQuit }) := by
  intro hm hlen htr hne hcm
  have hne1024 : msg.length ≠ maxMessageSize := Nat.ne_of_lt hlen
  constructor
  · intro hterm
    simp [sessionStep, hm, readingStep, hne1024, normalLineStep, htr, hne, hcm, hterm]
  · intro hterm
    simp [sessionStep, hm, readingStep, hne1024, normalLineStep, htr, hne, hcm, hterm]

/-- Witness for amended C3: `/time` gets its response and then the plain
echo `/time\n`, while `bye` gets only `Goodbye!`. -/
theorem claim_C3_echo_follows_every_reply_witness :
    sessionStep "T".data initState (.chunk "/time".data) =
      { initState with
          writes := initState.writes ++ [timeResp "T".data] ++ ["/time".data ++ ['\n']],
          logged := initState.logged ++ ["/time".data] }
  ∧ sessionStep "T".data initState (.chunk "bye".data) =
      { initState with writes := initState.writes ++ [byeResp],
                       mode := .closed .clientQuit } :=
  ⟨(claim_C3_echo_follows_every_reply "T".data initState "/time".data
      ⟨[timeResp "T".data], false⟩ rfl (by decide) (by decide) (by decide)
      (by decide)).1 rfl,
   (claim_C3_echo_follows_every_reply "T".data initState "bye".data
      ⟨[byeResp], true⟩ rfl (by decide) (by decide) (by decide)
      (by decide)).2 rfl⟩

/-- Counterexample to claim C4: `hello` is recognized by the dispatcher, yet
the session still appends it to the per-client log. -/
theorem claim_C4_counterexample :
    (handleClientMessage "T".data "hello".data).isSome = true
  ∧ (runSession "T".data [.chunk "hello".data]).logged = ["hello".data] :=
  ⟨by decide, by decide⟩

/-- Amended claim C4: the session appends every trimmed non-empty
non-oversized line whose dispatch lets the session continue to the
per-client log — recognized commands included; only terminating commands
(`bye`, `/quit`) produce no log entry. -/
theorem claim_C4_logs_every_continue_line (now : List Char) (st : SessionState)
    (msg : List Char) (out : DispatchOut) :
    st.mode = .reading → msg.length < maxMessageSize → trimSpace msg = msg →
    msg ≠ [] → handleClientMessage now msg = some out →
    (sessionStep now st (.chunk msg)).logged =
      if out.terminate = true then st.logged else st.logged ++ [msg] := by
  intro hm hlen htr hne hcm
  have hne1024 : msg.length ≠ maxMessageSize := Nat.ne_of_lt hlen
  by_cases hterm : out.terminate = true
  · simp [sessionStep, hm, readingStep, hne1024, normalLineStep, htr, hne, hcm, hterm]
  · simp [sessionStep, hm, readingStep, hne1024, normalLineStep, htr, hne, hcm, hterm]

/-- Witness for amended C4: the recognized non-terminating command `/time`
is appended to the per-client log. -/
theorem claim_C4_logs_every_continue_line_witness :
    (sessionStep "T".data initState (.chunk "/time".data)).logged =
      initState.logged ++ ["/time".data] := by
  have h1 := claim_C4_logs_every_continue_line "T".data initState "/time".data
    ⟨[timeResp "T".data], false⟩ rfl (by decide) (by decide) (by decide) (by decide)
  simpa using h1

/-- Counterexample to claim C7: a newline-terminated line of exactly 1024
bytes including the terminator fills the read buffer, so the session writes
the oversize notice and enters recovery instead of processing it as a normal
line. -/
theorem claim_C7_counterexample :
    (List.replicate 1023 'a' ++ ['\n']).length = 1024
  ∧ sessionStep "T".data initState
      (.chunk (List.replicate 1023 'a' ++ ['\n'])) =
      ⟨.flushing, [oversizeNotice], []⟩ :=
  ⟨by simp, by decide⟩

/-- Amended claim C7: only reads of strictly fewer than 1024 bytes are
processed as normal lines (trimmed, dispatched, echoed); a read of exactly
1024 bytes is treated as oversized even when it ends in a newline, so the
effective maximum for a normally processed line is 1023 bytes including the
terminator. -/
theorem claim_C7_line_size_boundary (now : List Char) (st : SessionState)
    (s : List Char) :
    st.mode = .reading → s.length < maxMessageSize →
    sessionStep now st (.chunk s) = normalLineStep now st s := by
  intro hm hlen
  simp [sessionStep, hm, readingStep, Nat.ne_of_lt hlen]

/-- Witness for amended C7: a short newline-terminated line goes through
normal line handling. -/
theorem claim_C7_line_size_boundary_witness :
    sessionStep "T".data initState (.chunk "hi\n".data) =
      normalLineStep "T".data initState "hi\n".data :=
  claim_C7_line_size_boundary "T".data initState "hi\n".data rfl (by decide)

/-- Counterexample to claim C8: a chunk of 1024 spaces trims to the empty
string, yet the session writes the oversize notice (not the prompt) and
enters recovery rather than staying in the reading state. -/
theorem claim_C8_counterexample :
    trimSpace (List.replicate 1024 ' ') = []
  ∧ sessionStep "T".data initState (.chunk (List.replicate 1024 ' ')) =
      ⟨.flushing, [oversizeNotice], []⟩
  ∧ oversizeNotice ≠ promptMsg :=
  ⟨by decide, by decide, by decide⟩

/-- Amended claim C8: every chunk of fewer than 1024 bytes whose trimmed
content is empty makes the session write the `Say something...` prompt,
append nothing to the log, skip the dispatcher, and stay in the reading
state. -/
theorem claim_C8_empty_prompt (now : List Char) (st : SessionState)
    (s : List Char) :
    st.mode = .reading → s.length < maxMessageSize → trimSpace s = [] →
    sessionStep now st (.chunk s) =
      { st with writes := st.writes ++ [promptMsg] } := by
  intro hm hlen htr
  simp [sessionStep, hm, readingStep, Nat.ne_of_lt hlen, normalLineStep, htr]

/-- Witness for amended C8: a lone blank chunk elicits the prompt and
nothing else. -/
theorem claim_C8_empty_prompt_witness :
    sessionStep "T".data initState (.chunk "  ".data) =
      { initState with writes := initState.writes ++ [promptMsg] } :=
  claim_C8_empty_prompt "T".data initState "  ".data rfl (by decide) (by decide)

end EchoServer
